import Mathlib

/-!
Shallow embedding of the demand-forecasting analytics server (src/index.js)
and proofs about its specified behaviour.

Conventions of the embedding:
* a CSV row (a JS object produced by csv-parser) is a `Record`, an ordered
  association list from field name to raw string value; a missing property
  reads as `none` (JS `undefined`);
* JS numbers arising from `parseFloat` / `parseInt` are modelled as
  `Option ℚ`, with `none` standing for `NaN`; arithmetic on them is
  NaN-propagating; IEEE rounding of exact arithmetic is out of scope;
* JS exceptions escaping a computation are modelled by `JsOutcome`.
-/

/-- One CSV row: ordered field-name/value pairs, values are raw strings. -/
abbrev Record := List (String × String)

/-- Property access `row.field` on a record: `none` models JS `undefined`. -/
def jsField (r : Record) (k : String) : Option String :=
  (r.find? (fun p => p.1 == k)).map Prod.snd

/-- JS truthiness of a possibly-undefined string: `undefined` and `""` are
falsy, every other string is truthy. -/
def truthy : Option String → Bool
  | none => false
  | some s => !(s == "")

/-- Decimal digits of a character list folded into a natural number. -/
def digitsToNat (ds : List Char) : Nat :=
  ds.foldl (fun a c => a * 10 + (c.toNat - 48)) 0

/-- Split a character list into its leading run of decimal digits and the rest. -/
def takeDigits (cs : List Char) : List Char × List Char :=
  (cs.takeWhile (·.isDigit), cs.dropWhile (·.isDigit))

/-- Leading sign of a numeric literal: returns the sign factor and the rest. -/
def takeSign : List Char → ℚ × List Char
  | '-' :: t => (-1, t)
  | '+' :: t => (1, t)
  | cs => (1, cs)

/-- Exponent suffix of a JS float literal (`e`/`E`, optional sign, digits);
yields 0 when no digits follow, matching `parseFloat("1e")` = 1. -/
def takeExp : List Char → Int
  | 'e' :: t => takeExpTail t
  | 'E' :: t => takeExpTail t
  | _ => 0
where
  /-- Sign and digits of the exponent after the `e`. -/
  takeExpTail (t : List Char) : Int :=
    let (sg, t2) : Int × List Char :=
      match t with
      | '-' :: u => (-1, u)
      | '+' :: u => (1, u)
      | _ => (1, t)
    let (ds, _) := takeDigits t2
    if ds.isEmpty then 0 else sg * (digitsToNat ds : Int)

/-- JS `parseFloat`: skip leading whitespace, optional sign, longest prefix
`digits [. digits] [exponent]`; `none` models the `NaN` result when no digit
is found.  (`Infinity` literals do not occur in the datasets and are not
modelled.) -/
def jsParseFloat (s : String) : Option ℚ :=
  let cs := s.data.dropWhile (·.isWhitespace)
  let (sign, cs1) := takeSign cs
  let (ip, cs2) := takeDigits cs1
  let (fp, cs3) :=
    match cs2 with
    | '.' :: t => takeDigits t
    | _ => ([], cs2)
  if ip.isEmpty && fp.isEmpty then none
  else
    let mant : ℚ := (digitsToNat ip : ℚ) + (digitsToNat fp : ℚ) / ((10 : ℚ) ^ fp.length)
    some (sign * mant * (10 : ℚ) ^ takeExp cs3)

/-- Hex digit value of a character, if it is one. -/
def hexVal (c : Char) : Option Nat :=
  if c.isDigit then some (c.toNat - 48)
  else if 'a' ≤ c ∧ c ≤ 'f' then some (c.toNat - 87)
  else if 'A' ≤ c ∧ c ≤ 'F' then some (c.toNat - 55)
  else none

/-- Leading run of hex digits and its value. -/
def takeHex (cs : List Char) : List Char × Nat :=
  let ds := cs.takeWhile (fun c => (hexVal c).isSome)
  (ds, ds.foldl (fun a c => a * 16 + ((hexVal c).getD 0)) 0)

/-- JS `parseInt` with no radix argument: whitespace, optional sign, then a
`0x`/`0X` hex literal or a run of decimal digits; `none` models `NaN`. -/
def jsParseInt (s : String) : Option ℚ :=
  let cs := s.data.dropWhile (·.isWhitespace)
  let (sign, cs1) := takeSign cs
  match cs1 with
  | '0' :: x :: t =>
    if x = 'x' ∨ x = 'X' then
      let (ds, v) := takeHex t
      if ds.isEmpty then none else some (sign * v)
    else
      let (ds, _) := takeDigits ('0' :: x :: t)
      if ds.isEmpty then none else some (sign * (digitsToNat ds : ℚ))
  | _ =>
    let (ds, _) := takeDigits cs1
    if ds.isEmpty then none else some (sign * (digitsToNat ds : ℚ))

/-- Numeric coercion `parseFloat(raw || 0)` as used for `Sales`,
`Order Item Discount Rate`, `Lead_Time_Days`, …: an absent or empty raw value
falls back to the literal `0` before parsing. -/
def toNumber (raw : Option String) : Option ℚ :=
  match raw with
  | none => some 0
  | some s => if s = "" then some 0 else jsParseFloat s

/-- Integer coercion `parseInt(raw || 0)` as used for `Stock_On_Hand`,
`In_Transit`, `unit`, …. -/
def toInt (raw : Option String) : Option ℚ :=
  match raw with
  | none => some 0
  | some s => if s = "" then some 0 else jsParseInt s

/-- NaN-propagating addition on JS numbers. -/
def nAdd : Option ℚ → Option ℚ → Option ℚ
  | some a, some b => some (a + b)
  | _, _ => none

/-- NaN-propagating subtraction on JS numbers. -/
def nSub : Option ℚ → Option ℚ → Option ℚ
  | some a, some b => some (a - b)
  | _, _ => none

/-- JS `reduce((sum, x) => sum + f x, 0)` over a list of JS numbers. -/
def jsSum (l : List (Option ℚ)) : Option ℚ :=
  l.foldl nAdd (some 0)

/-- JS `<` on numbers: any comparison with NaN is false. -/
def jsLt : Option ℚ → Option ℚ → Bool
  | some a, some b => decide (a < b)
  | _, _ => false

/-- JS `Math.round`: half-up rounding, i.e. `⌊x + 1/2⌋`. -/
def jsRound (q : ℚ) : Int := ⌊q + 1 / 2⌋

/-- The idiom `Math.round(x * 100) / 100` on a JS number (NaN stays NaN). -/
def round2 (x : Option ℚ) : Option ℚ :=
  x.map (fun q => (jsRound (q * 100) : ℚ) / 100)

/-- JS `Set` insertion order semantics: append a key unless already present. -/
def setInsert (ks : List (Option String)) (k : Option String) : List (Option String) :=
  if k ∈ ks then ks else ks ++ [k]

/-- `new Set(list).size`: number of distinct values. -/
def distinctCount (l : List (Option String)) : Nat :=
  (l.foldl setInsert []).length

/-! ### Dates

`loadData` parses each forecast row's `Date` with `new Date(...)`; the
aggregator then reads calendar fields from it.  A parsed date is modelled by
its Gregorian components, mirroring the JS `Date` accessors used. -/

/-- A successfully parsed JS `Date`: Gregorian year, 0-based month
(as returned by `getMonth`), and 1-based day of month. -/
structure JSDate where
  year : Nat
  month0 : Nat
  day : Nat
deriving DecidableEq, Repr

/-- Day count of a Gregorian civil date (year ≥ 1, month 1–12), counted from
0000-03-01; standard era/year-of-era computation. -/
def daysFromCivil (y m d : Nat) : Nat :=
  let y2 := if m ≤ 2 then y - 1 else y
  let era := y2 / 400
  let yoe := y2 % 400
  let mp := (m + 9) % 12
  let doy := (153 * mp + 2) / 5 + d - 1
  let doe := yoe * 365 + yoe / 4 - yoe / 100 + doy
  era * 146097 + doe

/-- Day number of a `JSDate`. -/
def dayNumber (d : JSDate) : Nat := daysFromCivil d.year (d.month0 + 1) d.day

/-- Day of week of a day number, Sunday = 0 (0000-03-01 was a Wednesday). -/
def dayOfWeek (n : Nat) : Nat := (n + 3) % 7

/-- Day number of the Sunday starting the week of day `n`
(date-fns default `weekStartsOn: 0`). -/
def startOfWeekDay (n : Nat) : Nat := n - dayOfWeek n

/-- The week-numbering year of a date per date-fns `getWeek` defaults
(`firstWeekContainsDate: 1`): the year whose first week start the date falls
on or after. -/
def weekYear (d : JSDate) : Nat :=
  let n := dayNumber d
  if startOfWeekDay (daysFromCivil (d.year + 1) 1 1) ≤ n then d.year + 1
  else if startOfWeekDay (daysFromCivil d.year 1 1) ≤ n then d.year
  else d.year - 1

/-- date-fns `getWeek` with default options (weeks start Sunday; week 1 is
the week containing January 1). -/
def getWeekJS (d : JSDate) : Nat :=
  let n := dayNumber d
  let wy := weekYear d
  (startOfWeekDay n - startOfWeekDay (daysFromCivil wy 1 1)) / 7 + 1

/-- JS `getMonth`: 0-based month. -/
def getMonthJS (d : JSDate) : Nat := d.month0

/-- date-fns `getQuarter`: 1-based quarter. -/
def getQuarterJS (d : JSDate) : Nat := d.month0 / 3 + 1

/-! ### Forecast store, filter engine and period aggregator -/

/-- A row of the forecast dataset after `loadData`: the raw CSV fields, with
`Forecasted_Demand` overwritten by its parsed numeric value and `Date` by the
parsed date (rows whose date or demand fail to parse do not occur in the
dataset; the measure is carried as an exact rational). -/
structure ForecastRecord where
  Date : JSDate
  Forecasted_Demand : ℚ
  fields : List (String × String)
deriving DecidableEq, Repr

/-- Raw string field of a forecast row (`PRODUCT_CARD_ID`, `PRODUCT_NAME`, …). -/
def fField (r : ForecastRecord) (k : String) : Option String :=
  jsField r.fields k

/-- The `filterData` helper: apply the `PRODUCT_CARD_ID` and `PRODUCT_NAME`
equality filters, each only when the query parameter is truthy
(`if (PRODUCT_CARD_ID) { ... }`). -/
def filterData (qId qName : Option String) (data : List ForecastRecord) :
    List ForecastRecord :=
  let d1 := if truthy qId then data.filter (fun r => fField r "PRODUCT_CARD_ID" == qId) else data
  if truthy qName then d1.filter (fun r => fField r "PRODUCT_NAME" == qName) else d1

/-- Modelled from the spec: the Filter Engine as §4.2 words it — for each
*present* query parameter keep exactly the records whose field equals it,
predicates composed by AND.  Used only to compare against `filterData`. -/
def specFilterData (qId qName : Option String) (data : List ForecastRecord) :
    List ForecastRecord :=
  data.filter (fun r =>
    (match qId with
     | none => true
     | some v => fField r "PRODUCT_CARD_ID" == some v)
    &&
    (match qName with
     | none => true
     | some v => fField r "PRODUCT_NAME" == some v))

/-- One accumulator bucket of `aggregateData`: `{ demand, count }`. -/
structure AggBucket where
  demand : ℚ
  count : Nat
deriving DecidableEq, Repr

/-- One output row of `aggregateData`. -/
structure AggRow where
  period : String
  total_demand : ℚ
  average_demand : ℚ
deriving DecidableEq, Repr

/-- The period key `${year}-W${week}` / `-M` / `-Q` computed inside the
reducer; an unrecognised granularity leaves the JS variable `undefined`,
which indexes the accumulator under the property name `"undefined"`. -/
def periodKey (groupBy : String) (d : JSDate) : String :=
  if groupBy = "weekly" then
    toString d.year ++ "-W" ++ toString (getWeekJS d)
  else if groupBy = "monthly" then
    toString d.year ++ "-M" ++ toString (getMonthJS d + 1)
  else if groupBy = "quarterly" then
    toString d.year ++ "-Q" ++ toString (getQuarterJS d)
  else
    "undefined"

/-- Insert one record's demand into the accumulator object, which iterates
in first-seen key order (JS object insertion order; period keys are not
integer-like). -/
def accUpdate : List (String × AggBucket) → String → ℚ → List (String × AggBucket)
  | [], k, v => [(k, ⟨v, 1⟩)]
  | (k2, b) :: t, k, v =>
    if k2 = k then (k2, ⟨b.demand + v, b.count + 1⟩) :: t
    else (k2, b) :: accUpdate t k v

/-- The `aggregateData` helper: one pass accumulating `{demand, count}` per
period key, then one output row per bucket with total and average. -/
def aggregateData (data : List ForecastRecord) (groupBy : String) : List AggRow :=
  let agg := data.foldl
    (fun acc r => accUpdate acc (periodKey groupBy r.Date) r.Forecasted_Demand) []
  agg.map (fun p => ⟨p.1, p.2.demand, p.2.demand / (p.2.count : ℚ)⟩)

/-! ### Products endpoint (`/api/products`) -/

/-- One `{PRODUCT_CARD_ID, PRODUCT_NAME}` dropdown pair. -/
structure ProductPair where
  PRODUCT_CARD_ID : Option String
  PRODUCT_NAME : Option String
deriving DecidableEq, Repr

/-- The pair built from one forecast row. -/
def mkPair (r : ForecastRecord) : ProductPair :=
  ⟨fField r "PRODUCT_CARD_ID", fField r "PRODUCT_NAME"⟩

/-- JS `Map.set` semantics: an existing key keeps its position but its value
is overwritten; a new key is appended. -/
def jsMapInsert (m : List (Option String × ProductPair)) (k : Option String)
    (v : ProductPair) : List (Option String × ProductPair) :=
  match m with
  | [] => [(k, v)]
  | (k2, v2) :: t =>
    if k2 = k then (k2, v) :: t else (k2, v2) :: jsMapInsert t k v

/-- `new Map(forecastData.map(item => [id, pair]))` built entry by entry. -/
def productsMap (data : List ForecastRecord) : List (Option String × ProductPair) :=
  data.foldl (fun m r => jsMapInsert m (fField r "PRODUCT_CARD_ID") (mkPair r)) []

/-- The `/api/products` handler body: the values of the keyed map. -/
def productsEndpoint (data : List ForecastRecord) : List ProductPair :=
  (productsMap data).map Prod.snd

/-- Lookup in the JS map (used to state what value each key ends up with). -/
def mapLookup (m : List (Option String × ProductPair)) (k : Option String) :
    Option ProductPair :=
  (m.find? (fun p => p.1 == k)).map Prod.snd

/-- First-seen key order of the forecast ids, as a JS `Map`/`Set` produces it. -/
def firstSeenIds (data : List ForecastRecord) : List (Option String) :=
  data.foldl (fun ks r => setInsert ks (fField r "PRODUCT_CARD_ID")) []

/-! ### KPI calculators -/

/-- Body of the `/api/sales/kpis` snapshot. -/
structure SalesKpis where
  total_orders : Nat
  total_sales : Option ℚ
  avg_discount : Option ℚ
  late_deliveries : Nat
deriving DecidableEq, Repr

/-- Result of the sales KPI handler: the guard's `{error}` body or the snapshot. -/
inductive SalesKpisResult where
  | err (msg : String)
  | ok (k : SalesKpis)
deriving DecidableEq, Repr

/-- Division of a JS number by a length (`sum / arr.length`); a zero length
gives `0 / 0 = NaN`, the only way this call site can divide by zero. -/
def divByLength (x : Option ℚ) (n : Nat) : Option ℚ :=
  match x, n with
  | some q, Nat.succ m => some (q / (Nat.succ m : ℚ))
  | _, _ => none

/-- The `/api/sales/kpis` handler: empty-data guard, then distinct order
items, rounded total sales, mean discount rate as a rounded percentage, and
the count of `Late_delivery_risk === '1'` rows. -/
def salesKpis (salesData : List Record) : SalesKpisResult :=
  if salesData.length = 0 then .err "Sales data not found"
  else
    let totalOrders := distinctCount (salesData.map (fun r => jsField r "Order Item Id"))
    let totalSales := jsSum (salesData.map (fun r => toNumber (jsField r "Sales")))
    let avgDiscount := divByLength
      (jsSum (salesData.map (fun r => toNumber (jsField r "Order Item Discount Rate"))))
      salesData.length
    let late := (salesData.filter (fun r => jsField r "Late_delivery_risk" == some "1")).length
    .ok ⟨totalOrders, round2 totalSales,
      (round2 (avgDiscount.map (fun q => q * 100))), late⟩

/-- Body of the `/api/inventory/kpis` snapshot. -/
structure InventoryKpis where
  total_skus : Nat
  total_stock_on_hand : Option ℚ
  in_transit : Option ℚ
  below_reorder_point : Nat
  avg_lead_time : Option ℚ
  scheduled_qty : Option ℚ
deriving DecidableEq, Repr

/-- The `/api/inventory/kpis` handler body (it has no empty-data guard):
`avg_lead_time` divides by `stockData.length`, so an empty stock dataset
performs `0 / 0`, i.e. NaN (`none`). -/
def inventoryKpis (stockData alertData scheduleData : List Record) : InventoryKpis :=
  { total_skus := distinctCount (stockData.map (fun r => jsField r "SKU_No"))
    total_stock_on_hand := jsSum (stockData.map (fun r => toInt (jsField r "Stock_On_Hand")))
    in_transit := jsSum (stockData.map (fun r => toInt (jsField r "In_Transit")))
    below_reorder_point :=
      (alertData.filter (fun r =>
        jsLt (toInt (jsField r "Available")) (toInt (jsField r "Reorder_Point")))).length
    avg_lead_time := round2 (divByLength
      (jsSum (stockData.map (fun r => toNumber (jsField r "Lead_Time_Days"))))
      stockData.length)
    scheduled_qty := jsSum (scheduleData.map (fun r => toInt (jsField r "Scheduled_Quantity"))) }

/-- Body of the `/api/kpis` production/operator snapshot. -/
structure ProductionKpis where
  total_operators : Nat
  absent_today : Nat
  total_units_scheduled : Option ℚ
  unique_products : Nat
deriving DecidableEq, Repr

/-- The `/api/kpis` handler body: fixed reference dates `'2018-01-01'` and
`'01-01-2018'` compared as exact strings; no division anywhere. -/
def productionKpis (attendanceData stationScheduleData : List Record) : ProductionKpis :=
  { total_operators := distinctCount (attendanceData.map (fun r => jsField r "Operator_ID"))
    absent_today :=
      (attendanceData.filter (fun r =>
        jsField r "Date" == some "2018-01-01" && jsField r "Present" == some "No")).length
    total_units_scheduled := jsSum
      ((stationScheduleData.filter (fun r =>
        jsField r "scheduled_date" == some "01-01-2018")).map
        (fun r => toInt (jsField r "unit")))
    unique_products := distinctCount (stationScheduleData.map (fun r => jsField r "product_name")) }

/-! ### JS exceptions and the supplier handlers -/

/-- Result of running a piece of JS: a value, or an exception that escaped. -/
inductive JsOutcome (α : Type) where
  | ok (val : α)
  | thrown (msg : String)
deriving DecidableEq, Repr

/-- Sequencing that propagates a thrown exception. -/
def JsOutcome.bind {α β : Type} : JsOutcome α → (α → JsOutcome β) → JsOutcome β
  | .ok a, f => f a
  | .thrown m, _ => .thrown m

instance : Monad JsOutcome where
  pure := JsOutcome.ok
  bind := JsOutcome.bind

/-- `Array.prototype.filter` with a callback that may throw (its result is
`none` when evaluating it raises a TypeError): the first throwing element
aborts the whole call. -/
def filterE {α : Type} (p : α → Option Bool) : List α → JsOutcome (List α)
  | [] => .ok []
  | x :: t =>
    match p x with
    | none => .thrown "TypeError"
    | some b =>
      match filterE p t with
      | .ok l => .ok (if b then x :: l else l)
      | .thrown m => .thrown m

/-- `Array.prototype.find` with a callback that may throw. -/
def findE {α : Type} (p : α → Option Bool) : List α → JsOutcome (Option α)
  | [] => .ok none
  | x :: t =>
    match p x with
    | none => .thrown "TypeError"
    | some b => if b then .ok (some x) else findE p t

/-- Character-by-character ASCII lower-casing, the fragment of JS
`toLowerCase` the datasets' ASCII names exercise. -/
def lowerStr (s : String) : String :=
  String.mk (s.data.map Char.toLower)

/-- The callback `item => item.Supplier_Name.toLowerCase() === supplier.toLowerCase()`:
evaluating it on a record without a `Supplier_Name` property throws. -/
def lowerNameMatches (supplier : String) (r : Record) : Option Bool :=
  (jsField r "Supplier_Name").map (fun s => lowerStr s == lowerStr supplier)

/-- Property access followed by a string method call: throws on `undefined`. -/
def strFieldE (r : Record) (k : String) : JsOutcome String :=
  match jsField r k with
  | some s => .ok s
  | none => .thrown "TypeError"

/-- JS `str.replace('%', '')`: removes only the first occurrence. -/
def dropFirstChar (c : Char) : List Char → List Char
  | [] => []
  | x :: t => if x = c then t else x :: dropFirstChar c t

/-- The percent-stripping idiom `s.replace('%', '')`. -/
def stripFirstPercent (s : String) : String :=
  String.mk (dropFirstChar '%' s.data)

/-- `parseFloat` applied directly to a possibly-undefined field:
`parseFloat(undefined)` is NaN, no throw. -/
def parseFloatOpt (o : Option String) : Option ℚ :=
  match o with
  | some s => jsParseFloat s
  | none => none

/-- `parseInt` applied directly to a possibly-undefined field. -/
def parseIntOpt (o : Option String) : Option ℚ :=
  match o with
  | some s => jsParseInt s
  | none => none

/-- Responses of the `/api/suppliers/:endpoint/:supplier` handler. -/
inductive SupplierResponse where
  | notFound (msg : String)
  | badEndpoint (msg : String)
  | kpis (supplier : Option String) (lead_time_days fulfillment_rate_percent otd_percent : Option ℚ)
      (late_deliveries total_orders : Option ℚ)
  | metrics (otd quality fulfillment : Option ℚ)
  | deliveryStats (on_time late total : Option ℚ)
deriving DecidableEq, Repr

/-- The `/api/suppliers/:endpoint/:supplier` handler (no try/catch around it):
case-insensitive name filter, 404 on no match, then one of three snapshot
shapes or a 400 for an unknown endpoint.  Field accesses followed by string
methods throw on records missing the field, and the throw escapes. -/
def supplierEndpointHandler (endpoint supplier : String) (suppliersData : List Record) :
    JsOutcome SupplierResponse := do
  let m ← filterE (lowerNameMatches supplier) suppliersData
  match m with
  | [] => return .notFound (supplier ++ " not found")
  | sd :: _ =>
    if endpoint = "kpis" then do
      let fr ← strFieldE sd "Fulfillment_Rate"
      let otd ← strFieldE sd "OTD_Percentage"
      return .kpis (jsField sd "Supplier_Name")
        (parseFloatOpt (jsField sd "Lead_Time_Days"))
        (jsParseFloat (stripFirstPercent fr))
        (jsParseFloat (stripFirstPercent otd))
        (parseIntOpt (jsField sd "Late_Deliveries"))
        (parseIntOpt (jsField sd "Total_Orders"))
    else if endpoint = "metrics" then do
      let otd ← strFieldE sd "OTD_Percentage"
      let fr ← strFieldE sd "Fulfillment_Rate"
      return .metrics (jsParseFloat (stripFirstPercent otd))
        (parseFloatOpt (jsField sd "Quality_Score"))
        (jsParseFloat (stripFirstPercent fr))
    else if endpoint = "delivery-stats" then
      let t := parseIntOpt (jsField sd "Total_Orders")
      let l := parseIntOpt (jsField sd "Late_Deliveries")
      return .deliveryStats (nSub t l) l t
    else
      return .badEndpoint ("Unknown supplier endpoint '" ++ endpoint ++ "'")

/-! ### Alternate-suppliers resolver (`/api/suppliers/alternates/:supplier`) -/

/-- The projected row shape built for each alternate supplier. -/
structure AltRow where
  sku_id : Option String
  supplier_name : Option String
  otd_percentage : Option String
  quality_score : Option String
  email : Option String
  location : Option String
deriving DecidableEq, Repr

/-- Projection of an alternate-suppliers record onto the response fields. -/
def projAlt (r : Record) : AltRow :=
  ⟨jsField r "sku_id", jsField r "supplier_name", jsField r "otd_percentage",
   jsField r "quality_score", jsField r "email", jsField r "location"⟩

/-- Result of the alternates resolver: the 404 `{error}` body or the row list. -/
inductive AltResult where
  | notFound (msg : String)
  | ok (rows : List AltRow)
deriving DecidableEq, Repr

/-- The `/api/suppliers/alternates/:supplier` handler: case-insensitive
`find` over the suppliers dataset, 404 `{error: "<name> not found"}` when it
misses, otherwise a case-sensitive exact filter of the alternates dataset on
the matched record's `SKU_No`, followed by dropping projected rows whose
`sku_id` or `supplier_name` is falsy (absent or empty). -/
def alternatesHandler (supplier : String) (suppliersData alternateSuppliersData : List Record) :
    JsOutcome AltResult := do
  let m ← findE (lowerNameMatches supplier) suppliersData
  match m with
  | none => return .notFound (supplier ++ " not found")
  | some mainSupplier =>
    let skus := jsField mainSupplier "SKU_No"
    let filtered := alternateSuppliersData.filter (fun r => jsField r "sku_id" == skus)
    return .ok ((filtered.map projAlt).filter
      (fun p => truthy p.sku_id && truthy p.supplier_name))

/-- Pure counterpart of the case-insensitive supplier lookup, meaningful when
every record carries a `Supplier_Name`; used to state the resolver theorems. -/
def supplierFind (supplier : String) (suppliersData : List Record) : Option Record :=
  suppliersData.find? (fun r => (lowerNameMatches supplier r).getD false)

/-! ### Attendance endpoints -/

/-- The renamed attendance row served by `/api/attendance`. -/
structure AttendanceRow where
  date : Option String
  operator_id : Option String
  operator_name : Option String
  present : Option String
  shift : String
deriving DecidableEq, Repr

/-- Field renaming applied to each attendance record, with the
`item.Shift || 'Day'` fallback (absent or empty shift becomes `"Day"`). -/
def renameRow (r : Record) : AttendanceRow :=
  { date := jsField r "Date"
    operator_id := jsField r "Operator_ID"
    operator_name := jsField r "Operator_Name"
    present := jsField r "Present"
    shift :=
      match jsField r "Shift" with
      | some s => if s = "" then "Day" else s
      | none => "Day" }

/-- Day value of an ISO `YYYY-MM-DD` date string as `new Date(s)` orders it;
`none` models an invalid date (whose comparison contributes NaN, treated as
equal by the sort).  Only the ISO date-only format appearing in the
attendance data is modelled. -/
def parseISODay (s : String) : Option Nat :=
  match s.splitOn "-" with
  | [y, m, d] =>
    match y.toNat?, m.toNat?, d.toNat? with
    | some yn, some mn, some dn =>
      if 1 ≤ mn ∧ mn ≤ 12 ∧ 1 ≤ dn ∧ dn ≤ 31 ∧ y ≠ "" ∧ m ≠ "" ∧ d ≠ ""
      then some (daysFromCivil yn mn dn) else none
    | _, _, _ => none
  | _ => none

/-- The comparator `(a, b) => new Date(a.date) - new Date(b.date)`: the
difference of the two date values, or 0 when either is invalid (NaN results
are treated as 0 by the sort). -/
def cmpRow (a b : AttendanceRow) : Int :=
  match a.date.bind parseISODay, b.date.bind parseISODay with
  | some x, some y => (x : Int) - (y : Int)
  | _, _ => 0

/-- Stable insertion of `x` after every element the comparator does not
place strictly after `x` — the position a spec-compliant stable
`Array.prototype.sort` gives it. -/
def insertStable {α : Type} (c : α → α → Int) (x : α) : List α → List α
  | [] => [x]
  | y :: ys => if c y x ≤ 0 then y :: insertStable c x ys else x :: y :: ys

/-- Stable `Array.prototype.sort` with a numeric comparator. -/
def jsSort {α : Type} (c : α → α → Int) (l : List α) : List α :=
  l.foldl (fun acc x => insertStable c x acc) []

/-- The `/api/attendance` handler body. -/
def attendanceHandler (attendanceData : List Record) : List AttendanceRow :=
  jsSort cmpRow (attendanceData.map renameRow)

/-- The `/api/attendance/table` handler body (transcribed from its own,
textually separate source block). -/
def attendanceTableHandler (attendanceData : List Record) : List AttendanceRow :=
  jsSort cmpRow (attendanceData.map renameRow)

/-! ### Route table and dispatch -/

/-- One segment of an Express route pattern. -/
inductive Seg where
  | lit (s : String)
  | param
deriving DecidableEq, Repr

/-- Literal route pattern from its path segments. -/
def exactPath (segs : List String) : List Seg := segs.map Seg.lit

/-- Does a pattern match a concrete segmented path? (`:name` matches any one
segment.) -/
def matchSegs : List Seg → List String → Bool
  | [], [] => true
  | .lit s :: t, x :: xs => s == x && matchSegs t xs
  | .param :: t, _ :: xs => matchSegs t xs
  | _, _ => false

/-- The registered GET handlers, identified by what they serve. -/
inductive RouteHandler where
  | forecasts | forecastsWeekly | forecastsMonthly | forecastsQuarterly
  | insightsBullet
  | products
  | salesKpisRoute | salesMetric
  | inventoryKpisRoute | inventoryReorder | inventoryLeadTimes | inventorySuppliers
  | inventoryDataset
  | procurementAll | procurementBySku
  | productionKpisRoute
  | scheduleTable | scheduleChart | scheduleWorkload
  | attendanceMain | attendanceTable
  | leaves
  | insightsOperator
  | insightsByOperator
  | operatorsDropdown
  | suppliersEndpoint | suppliersList | suppliersAlternates | suppliersInsight
  | insightsByPeriod
  | healthRoot
deriving DecidableEq, Repr

/-- The route registration table, in source order of the `app.get` calls.
`/api/insights` appears twice: at line 155 (monthly bullet insights) and at
line 739 (operator insights). -/
def routes : List (List Seg × RouteHandler) :=
  [ (exactPath ["api", "forecasts"], .forecasts)
  , (exactPath ["api", "forecasts", "weekly"], .forecastsWeekly)
  , (exactPath ["api", "forecasts", "monthly"], .forecastsMonthly)
  , (exactPath ["api", "forecasts", "quarterly"], .forecastsQuarterly)
  , (exactPath ["api", "insights"], .insightsBullet)
  , (exactPath ["api", "products"], .products)
  , (exactPath ["api", "sales", "kpis"], .salesKpisRoute)
  , ([.lit "api", .lit "sales", .param], .salesMetric)
  , (exactPath ["api", "inventory", "kpis"], .inventoryKpisRoute)
  , (exactPath ["api", "inventory", "reorder_chart"], .inventoryReorder)
  , (exactPath ["api", "inventory", "lead_times"], .inventoryLeadTimes)
  , (exactPath ["api", "inventory", "suppliers"], .inventorySuppliers)
  , ([.lit "api", .lit "inventory", .param], .inventoryDataset)
  , (exactPath ["api", "procurement", "insights"], .procurementAll)
  , ([.lit "api", .lit "procurement", .lit "insight", .param], .procurementBySku)
  , (exactPath ["api", "kpis"], .productionKpisRoute)
  , (exactPath ["api", "schedule"], .scheduleTable)
  , (exactPath ["api", "schedule", "chart"], .scheduleChart)
  , (exactPath ["api", "schedule", "operator_workload"], .scheduleWorkload)
  , (exactPath ["api", "attendance"], .attendanceMain)
  , (exactPath ["api", "attendance", "table"], .attendanceTable)
  , (exactPath ["api", "leaves"], .leaves)
  , (exactPath ["api", "insights"], .insightsOperator)
  , ([.lit "api", .lit "insights1", .param], .insightsByOperator)
  , (exactPath ["api", "operators", "dropdown"], .operatorsDropdown)
  , ([.lit "api", .lit "suppliers", .param, .param], .suppliersEndpoint)
  , (exactPath ["api", "suppliers", "list"], .suppliersList)
  , ([.lit "api", .lit "suppliers", .lit "alternates", .param], .suppliersAlternates)
  , ([.lit "api", .lit "suppliers", .lit "insight", .param], .suppliersInsight)
  , ([.lit "api", .lit "insights", .param], .insightsByPeriod)
  , (exactPath [], .healthRoot)
  ]

/-- Express dispatch: the first registered route whose pattern matches
handles the request (a handler that responds never calls `next()` here). -/
def dispatch (path : List String) : Option RouteHandler :=
  (routes.find? (fun e => matchSegs e.1 path)).map Prod.snd

/-! ### Startup model -/

/-- The two things the startup code does, in some order. -/
inductive StartupEvent where
  | beginAccepting
  | loadsSettle (success : Bool)
deriving DecidableEq, Repr

/-- Observable server state during startup. -/
structure ServerState where
  accepting : Bool
  datasetsLoaded : Bool
  exitCode : Option Nat
deriving DecidableEq, Repr

/-- Before startup: not accepting, stores empty, process alive. -/
def initialState : ServerState := ⟨false, false, none⟩

/-- Effect of each startup event: `app.listen` begins accepting; the awaited
`Promise.all` either populates every store or hits the `catch` block, which
calls `process.exit(1)`. -/
def stepStartup (s : ServerState) : StartupEvent → ServerState
  | .beginAccepting => { s with accepting := true }
  | .loadsSettle true => { s with datasetsLoaded := true }
  | .loadsSettle false => { s with exitCode := some 1 }

/-- The order the source performs them in: `app.listen(port, cb)` starts the
listener first; the dataset loads run (and settle) inside the callback. -/
def startupSequence (success : Bool) : List StartupEvent :=
  [.beginAccepting, .loadsSettle success]

/-- All states the server passes through while running an event sequence. -/
def statesAlong (s : ServerState) : List StartupEvent → List ServerState
  | [] => [s]
  | e :: t => s :: statesAlong (stepStartup s e) t

/-- Total demand held in an aggregation accumulator. -/
def accTotal (acc : List (String × AggBucket)) : ℚ :=
  (acc.map (fun p => p.2.demand)).sum

/-!
## Theorems
-/

/-- C1: the claim requires that no request is accepted before all startup
loads complete and that handlers never see a partially-initialized store.
The source instead calls `app.listen` first and runs the loads inside the
listen callback (its own comment says "Start the server after loading the
data"), so along the successful startup trace there is a state that is
accepting requests while the datasets are still unloaded (empty); the part
of the claim about failed loads does hold: the failure path exits with
code 1. -/
theorem startup_accepts_before_loads :
    ((statesAlong initialState (startupSequence true)).any
      (fun s => s.accepting && !s.datasetsLoaded)) = true
    ∧ (statesAlong initialState (startupSequence false)).getLast?
        = some ⟨true, false, some 1⟩ := by
  decide

/-- Each accumulator update adds exactly the incoming measure to the stored
total. -/
theorem accUpdate_total (acc : List (String × AggBucket)) (k : String) (v : ℚ) :
    accTotal (accUpdate acc k v) = accTotal acc + v := by
  induction acc with
  | nil => simp [accUpdate, accTotal]
  | cons h t ih =>
    obtain ⟨k2, b⟩ := h
    by_cases hk : k2 = k
    · simp only [accUpdate, hk, if_pos rfl, accTotal, List.map_cons, List.sum_cons]
      simp [accTotal] at ih ⊢
      ring
    · simp only [accUpdate, if_neg hk, accTotal, List.map_cons, List.sum_cons] at ih ⊢
      rw [ih]
      ring

/-- Folding the whole dataset into an accumulator adds the dataset's measure
sum to the accumulator's total. -/
theorem foldl_accUpdate_total (g : String) (data : List ForecastRecord) :
    ∀ acc, accTotal (data.foldl
        (fun a r => accUpdate a (periodKey g r.Date) r.Forecasted_Demand) acc)
      = accTotal acc + (data.map ForecastRecord.Forecasted_Demand).sum := by
  induction data with
  | nil => intro acc; simp
  | cons r t ih =>
    intro acc
    simp only [List.foldl_cons, List.map_cons, List.sum_cons]
    rw [ih, accUpdate_total]
    ring

/-- C2: for every record sequence and granularity, the sum of `total_demand`
over the buckets emitted by `aggregateData` equals the sum of the
`Forecasted_Demand` measure over the input records (stated for every
granularity string, in particular `weekly`, `monthly` and `quarterly`); and
re-summing the bucket totals of each part of any partition of a dataset
recovers the unfiltered measure sum of the whole dataset. -/
theorem aggregate_totals_preserve_sum (groupBy : String) (data : List ForecastRecord) :
    ((aggregateData data groupBy).map AggRow.total_demand).sum
      = (data.map ForecastRecord.Forecasted_Demand).sum
    ∧ ∀ parts : List (List ForecastRecord),
        (parts.map (fun p => ((aggregateData p groupBy).map AggRow.total_demand).sum)).sum
          = ((parts.flatten).map ForecastRecord.Forecasted_Demand).sum := by
  have main : ∀ d : List ForecastRecord,
      ((aggregateData d groupBy).map AggRow.total_demand).sum
        = (d.map ForecastRecord.Forecasted_Demand).sum := by
    intro d
    unfold aggregateData
    rw [List.map_map]
    have h := foldl_accUpdate_total groupBy d []
    simpa [accTotal, Function.comp] using h
  refine ⟨main data, ?_⟩
  intro parts
  induction parts with
  | nil => simp
  | cons p t ih => simp [main p, ih]

/-- C6 counterexample: a *present but empty* `PRODUCT_CARD_ID` query
parameter (`?PRODUCT_CARD_ID=`) is falsy, so `filterData` skips that filter
and returns the record with id `"X"`, while the claim as stated (filter on
every present parameter) keeps only records whose id equals `""`. -/
theorem filterData_empty_param_counterexample :
    filterData (some "") none [⟨⟨2024, 0, 1⟩, 0, [("PRODUCT_CARD_ID", "X")]⟩]
      = [⟨⟨2024, 0, 1⟩, 0, [("PRODUCT_CARD_ID", "X")]⟩]
    ∧ specFilterData (some "") none [⟨⟨2024, 0, 1⟩, 0, [("PRODUCT_CARD_ID", "X")]⟩] = [] := by
  constructor <;> rfl

/-- C6 (amended): for every query, `filterData` returns exactly the records
whose fields equal each present *non-empty* (truthy) parameter, predicates
composed by AND, in the original dataset order; with no predicate the output
is the input itself; and filtering by one field after the other equals one
conjunctive filtering pass. -/
theorem filterData_characterization (qId qName : Option String) (data : List ForecastRecord) :
    filterData qId qName data
      = data.filter (fun r =>
          (!truthy qId || (fField r "PRODUCT_CARD_ID" == qId))
          && (!truthy qName || (fField r "PRODUCT_NAME" == qName)))
    ∧ filterData none none data = data
    ∧ filterData qId none (filterData none qName data) = filterData qId qName data := by
  refine ⟨?_, ?_, ?_⟩
  · unfold filterData
    cases hI : truthy qId <;> cases hN : truthy qName <;>
      simp [List.filter_filter, Bool.and_comm]
  · rfl
  · unfold filterData
    cases hI : truthy qId <;> cases hN : truthy qName <;>
      simp [truthy, List.filter_filter, Bool.and_comm]

/-- Inserting into the JS map affects the key sequence exactly like a JS
`Set` insertion: an existing key keeps its position, a new one is appended. -/
theorem jsMapInsert_map_fst (m : List (Option String × ProductPair)) (k : Option String)
    (v : ProductPair) :
    (jsMapInsert m k v).map Prod.fst = setInsert (m.map Prod.fst) k := by
  induction m with
  | nil => simp [jsMapInsert, setInsert]
  | cons h t ih =>
    obtain ⟨k2, v2⟩ := h
    by_cases hk : k2 = k
    · subst hk
      simp [jsMapInsert, setInsert]
    · simp only [jsMapInsert, if_neg hk, List.map_cons, ih, setInsert]
      by_cases hmem : k ∈ t.map Prod.fst
      · simp [setInsert, hmem, hk, Ne.symm hk]
      · simp [setInsert, hmem, hk, Ne.symm hk]

/-- The key sequence of the products map is the first-seen id order. -/
theorem productsMap_map_fst (data : List ForecastRecord) :
    (productsMap data).map Prod.fst = firstSeenIds data := by
  unfold productsMap firstSeenIds
  induction data using List.reverseRecOn with
  | nil => rfl
  | append_singleton l r ih =>
    rw [List.foldl_append, List.foldl_append]
    simp only [List.foldl_cons, List.foldl_nil]
    rw [jsMapInsert_map_fst, ih]

/-- `Set`-style insertion preserves distinctness of the key sequence. -/
theorem setInsert_nodup (ks : List (Option String)) (k : Option String)
    (h : ks.Nodup) : (setInsert ks k).Nodup := by
  unfold setInsert
  by_cases hmem : k ∈ ks
  · simpa [hmem] using h
  · simp [hmem, List.nodup_append, h]

/-- The first-seen id sequence contains no duplicates. -/
theorem firstSeenIds_nodup (data : List ForecastRecord) : (firstSeenIds data).Nodup := by
  unfold firstSeenIds
  induction data using List.reverseRecOn with
  | nil => simp
  | append_singleton l r ih =>
    rw [List.foldl_append]
    simpa using setInsert_nodup _ _ ih

/-- JS `Map.set` lookup behaviour: the inserted key now maps to the new
value, every other key is untouched. -/
theorem mapLookup_jsMapInsert (m : List (Option String × ProductPair))
    (k k2 : Option String) (v : ProductPair) :
    mapLookup (jsMapInsert m k v) k2 = if k2 = k then some v else mapLookup m k2 := by
  induction m with
  | nil =>
    by_cases hk : k2 = k
    · simp [jsMapInsert, mapLookup, List.find?, hk]
    · have hb : (k == k2) = false := by simp [Ne.symm hk]
      simp [jsMapInsert, mapLookup, List.find?, hb, hk]
  | cons p t ih =>
    obtain ⟨k3, v3⟩ := p
    by_cases h3 : k3 = k
    · subst h3
      by_cases hk : k2 = k3
      · subst hk
        simp [jsMapInsert, mapLookup, List.find?]
      · have hb : (k3 == k2) = false := by simp [Ne.symm hk]
        simp [jsMapInsert, mapLookup, List.find?, hb, hk]
    · by_cases hk : k2 = k3
      · subst hk
        simp [jsMapInsert, if_neg h3, mapLookup, List.find?, h3]
      · have hb : (k3 == k2) = false := by simp [Ne.symm hk]
        simp only [jsMapInsert, if_neg h3, mapLookup, List.find?, hb] at ih ⊢
        exact ih

/-- After folding the whole dataset into the map, each id maps to the pair
of the *last* record carrying that id. -/
theorem productsFold_lookup (data : List ForecastRecord) (k : Option String) :
    mapLookup (productsMap data) k
      = ((data.filter (fun r => fField r "PRODUCT_CARD_ID" == k)).map mkPair).getLast? := by
  unfold productsMap
  induction data using List.reverseRecOn with
  | nil => rfl
  | append_singleton l r ih =>
    rw [List.foldl_append]
    simp only [List.foldl_cons, List.foldl_nil]
    rw [mapLookup_jsMapInsert]
    by_cases hk : k = fField r "PRODUCT_CARD_ID"
    · simp [hk, List.filter_append, List.getLast?_concat]
    · have hb : (fField r "PRODUCT_CARD_ID" == k) = false := by
        simp [Ne.symm hk]
      simp [hk, List.filter_append, hb, ih]

/-- The values of an association list with distinct keys are its key
sequence looked up pointwise. -/
theorem assoc_snd_eq_filterMap (m : List (Option String × ProductPair))
    (h : (m.map Prod.fst).Nodup) :
    m.map Prod.snd = (m.map Prod.fst).filterMap (mapLookup m) := by
  induction m with
  | nil => rfl
  | cons p t ih =>
    obtain ⟨k, v⟩ := p
    simp only [List.map_cons, List.nodup_cons] at h ⊢
    obtain ⟨hknot, hnd⟩ := h
    rw [List.filterMap_cons]
    have hself : mapLookup ((k, v) :: t) k = some v := by
      simp [mapLookup, List.find?]
    rw [hself]
    congr 1
    rw [List.filterMap_congr (g := mapLookup t) ?_, ih hnd]
    intro a ha
    have hne : k ≠ a := fun hEq => hknot (hEq ▸ ha)
    simp [mapLookup, List.find?, (by simp [hne] : (k == a) = false)]

/-- C8 counterexample: two records share `PRODUCT_CARD_ID` `"1"` with names
`"A"` then `"B"`; `new Map` keeps the value of the later entry, so the
endpoint returns the pair of the *last*-seen record, not the first-seen one
the claim states. -/
theorem products_last_seen_counterexample :
    productsEndpoint
        [⟨⟨2024, 0, 1⟩, 0, [("PRODUCT_CARD_ID", "1"), ("PRODUCT_NAME", "A")]⟩,
         ⟨⟨2024, 0, 1⟩, 0, [("PRODUCT_CARD_ID", "1"), ("PRODUCT_NAME", "B")]⟩]
      = [⟨some "1", some "B"⟩]
    ∧ (⟨some "1", some "B"⟩ : ProductPair) ≠ ⟨some "1", some "A"⟩ := by
  constructor
  · rfl
  · decide

/-- C8 (amended): `/api/products` returns exactly one pair per distinct
`PRODUCT_CARD_ID`, in first-seen id order, and for each id the pair comes
from the *last*-seen record with that id (JS `Map` overwrite semantics). -/
theorem products_characterization (data : List ForecastRecord) :
    productsEndpoint data
      = (firstSeenIds data).filterMap
          (fun k => ((data.filter (fun r => fField r "PRODUCT_CARD_ID" == k)).map mkPair).getLast?)
    ∧ (firstSeenIds data).Nodup
    ∧ ∀ k, mapLookup (productsMap data) k
        = ((data.filter (fun r => fField r "PRODUCT_CARD_ID" == k)).map mkPair).getLast? := by
  refine ⟨?_, firstSeenIds_nodup data, fun k => productsFold_lookup data k⟩
  have h6 := assoc_snd_eq_filterMap (productsMap data)
    (by rw [productsMap_map_fst]; exact firstSeenIds_nodup data)
  unfold productsEndpoint
  rw [h6, productsMap_map_fst]
  rw [show mapLookup (productsMap data)
      = (fun k => ((data.filter (fun r => fField r "PRODUCT_CARD_ID" == k)).map mkPair).getLast?)
    from funext (fun k => productsFold_lookup data k)]

/-- C3 counterexample: the inventory KPI calculator has no empty-dataset
guard; with all three backing datasets empty it does not return an error
result but a snapshot whose `avg_lead_time` is the result of the division
`0 / stockData.length = 0 / 0`, i.e. NaN (`none`) — it divides by zero
instead of returning a defined zero/placeholder value. -/
theorem inventory_kpis_empty_divzero :
    (inventoryKpis [] [] []).avg_lead_time = none
    ∧ inventoryKpis [] [] []
        = { total_skus := 0, total_stock_on_hand := some 0, in_transit := some 0,
            below_reorder_point := 0, avg_lead_time := none, scheduled_qty := some 0 } := by
  constructor <;> rfl

/-- C3 (amended): no KPI calculator raises on an empty dataset — the sales
calculator returns the structured `{error: "Sales data not found"}` body, the
production calculator returns an all-zero snapshot, the supplier handler
returns a structured 404 — but the inventory calculator divides by zero on
empty stock data (see the counterexample); its average is a number whenever
the stock dataset is non-empty and the summed lead times are not NaN. -/
theorem kpi_empty_guards_amended :
    salesKpis [] = .err "Sales data not found"
    ∧ productionKpis [] [] = { total_operators := 0, absent_today := 0,
                               total_units_scheduled := some 0, unique_products := 0 }
    ∧ (∀ endpoint supplier, supplierEndpointHandler endpoint supplier []
        = .ok (.notFound (supplier ++ " not found")))
    ∧ (∀ stockData alertData scheduleData : List Record,
        stockData ≠ [] →
        jsSum (stockData.map (fun r => toNumber (jsField r "Lead_Time_Days"))) ≠ none →
        (inventoryKpis stockData alertData scheduleData).avg_lead_time ≠ none) := by
  refine ⟨rfl, rfl, fun endpoint supplier => rfl, ?_⟩
  intro stockData alertData scheduleData hne hsum
  obtain ⟨q, hq⟩ := Option.ne_none_iff_exists'.mp hsum
  cases stockData with
  | nil => exact absurd rfl hne
  | cons r t =>
    simp only [inventoryKpis]
    rw [hq]
    simp [divByLength, round2, List.length_cons]

/-- Witness for the amended C3 theorem at a one-row stock dataset. -/
theorem kpi_empty_guards_witness :
    (([[("Lead_Time_Days", "5")]] : List Record) ≠ [])
    ∧ jsSum (([[("Lead_Time_Days", "5")]] : List Record).map
        (fun r => toNumber (jsField r "Lead_Time_Days"))) ≠ none
    ∧ (inventoryKpis [[("Lead_Time_Days", "5")]] [] []).avg_lead_time ≠ none := by
  refine ⟨by decide, by decide, ?_⟩
  exact kpi_empty_guards_amended.2.2.2 [[("Lead_Time_Days", "5")]] [] [] (by decide) (by decide)

/-- A pattern of literal segments matches exactly its own path. -/
theorem matchSegs_exact (ls : List String) :
    ∀ p : List String, matchSegs (exactPath ls) p = true → p = ls := by
  induction ls with
  | nil =>
    intro p h
    cases p with
    | nil => rfl
    | cons x xs => simp [exactPath, matchSegs] at h
  | cons s t ih =>
    intro p h
    cases p with
    | nil => simp [exactPath, matchSegs] at h
    | cons x xs =>
      simp only [exactPath, List.map_cons, matchSegs, Bool.and_eq_true, beq_iff_eq] at h
      obtain ⟨hsx, hrec⟩ := h
      have := ih xs hrec
      simp [hsx, this]

/-- C9 counterexample: a GET request to `/api/insights` is dispatched to the
*earlier*-registered forecast-bullet handler (Express picks the first
matching route), not to the later-registered operator-insights handler the
claim names. -/
theorem insights_route_counterexample :
    dispatch ["api", "insights"] = some RouteHandler.insightsBullet
    ∧ RouteHandler.insightsBullet ≠ RouteHandler.insightsOperator := by
  constructor
  · rfl
  · decide

/-- C9 (amended): of the two handlers registered for `/api/insights`, only
the *earlier*-registered (forecast-bullet) one is reachable: every path the
operator route's pattern matches is dispatched to the bullet handler, so the
later registration is dead. -/
theorem insights_route_amended :
    dispatch ["api", "insights"] = some RouteHandler.insightsBullet
    ∧ ∀ path, matchSegs (exactPath ["api", "insights"]) path = true →
        dispatch path = some RouteHandler.insightsBullet := by
  refine ⟨rfl, ?_⟩
  intro path h
  have hp := matchSegs_exact ["api", "insights"] path h
  subst hp
  rfl

/-- Witness for the amended C9 theorem at the concrete colliding path. -/
theorem insights_route_witness :
    dispatch ["api", "insights"] = some RouteHandler.insightsBullet :=
  insights_route_amended.2 ["api", "insights"] (by decide)
/-- A JS `filter` whose callback is defined (does not throw) on every
element succeeds, and only keeps elements of the input. -/
theorem filterE_ok {α : Type} (p : α → Option Bool) (l : List α)
    (h : ∀ x ∈ l, (p x).isSome = true) :
    ∃ m, filterE p l = .ok m ∧ ∀ x ∈ m, x ∈ l := by
  induction l with
  | nil => exact ⟨[], rfl, by simp⟩
  | cons x t ih =>
    obtain ⟨b, hb⟩ := Option.isSome_iff_exists.mp (h x (List.mem_cons_self x t))
    obtain ⟨m, hm, hmem⟩ := ih (fun y hy => h y (List.mem_cons_of_mem x hy))
    refine ⟨if b then x :: m else m, ?_, ?_⟩
    · simp only [filterE, hb, hm]
    · intro y hy
      by_cases hbv : b
      · subst hbv
        simp only [if_pos rfl] at hy
        rcases List.mem_cons.mp hy with h1 | h1
        · exact h1 ▸ List.mem_cons_self x t
        · exact List.mem_cons_of_mem x (hmem y h1)
      · simp only [if_neg hbv] at hy
        exact List.mem_cons_of_mem x (hmem y hy)

/-- C4 counterexample: the `/api/suppliers/:endpoint/:supplier` handler has
no try/catch; on a dataset containing a record without a `Supplier_Name`
field, the filter callback evaluates `undefined.toLowerCase()` and the
TypeError escapes the handler instead of becoming a JSON error payload. -/
theorem supplier_handler_throws_counterexample :
    supplierEndpointHandler "kpis" "Acme" [[]] = .thrown "TypeError" := by rfl

/-- C4 (amended): handlers whose body is wrapped in try/catch convert every
failure into a JSON payload, but the supplier handlers are unwrapped; they
are exception-free only under the assumption that every supplier record
carries the fields whose string methods they call (`Supplier_Name`,
`Fulfillment_Rate`, `OTD_Percentage`) — then every endpoint/supplier request
yields an ok JSON response. -/
theorem supplier_handler_total_amended (suppliersData : List Record)
    (h : ∀ r ∈ suppliersData, (jsField r "Supplier_Name").isSome = true
        ∧ (jsField r "Fulfillment_Rate").isSome = true
        ∧ (jsField r "OTD_Percentage").isSome = true) :
    ∀ endpoint supplier, ∃ resp,
      supplierEndpointHandler endpoint supplier suppliersData = .ok resp := by
  intro endpoint supplier
  obtain ⟨m, hm, hmem⟩ := filterE_ok (lowerNameMatches supplier) suppliersData
    (fun r hr => by
      obtain ⟨h1, _, _⟩ := h r hr
      obtain ⟨s, hs⟩ := Option.isSome_iff_exists.mp h1
      simp [lowerNameMatches, hs])
  unfold supplierEndpointHandler
  simp only [Bind.bind, JsOutcome.bind, hm]
  cases m with
  | nil => exact ⟨_, rfl⟩
  | cons sd rest =>
    have hsd := h sd (hmem sd (List.mem_cons_self sd rest))
    obtain ⟨-, hfr, hotd⟩ := hsd
    obtain ⟨fr, hfr⟩ := Option.isSome_iff_exists.mp hfr
    obtain ⟨otd, hotd⟩ := Option.isSome_iff_exists.mp hotd
    by_cases e1 : endpoint = "kpis"
    · simp only [e1, if_pos rfl, strFieldE, hfr, hotd, Bind.bind, JsOutcome.bind]
      exact ⟨_, rfl⟩
    · by_cases e2 : endpoint = "metrics"
      · simp only [if_neg e1, e2, if_pos rfl, strFieldE, hfr, hotd, Bind.bind, JsOutcome.bind]
        exact ⟨_, rfl⟩
      · by_cases e3 : endpoint = "delivery-stats"
        · simp only [if_neg e1, if_neg e2, e3, if_pos rfl]
          exact ⟨_, rfl⟩
        · simp only [if_neg e1, if_neg e2, if_neg e3]
          exact ⟨_, rfl⟩

/-- Witness for the amended C4 theorem at a concrete well-formed dataset. -/
theorem supplier_handler_total_witness :
    ∃ resp, supplierEndpointHandler "kpis" "acme"
        [[("Supplier_Name", "Acme"), ("Fulfillment_Rate", "90.5%"), ("OTD_Percentage", "80%")]]
      = .ok resp :=
  supplier_handler_total_amended
    [[("Supplier_Name", "Acme"), ("Fulfillment_Rate", "90.5%"), ("OTD_Percentage", "80%")]]
    (by decide) "kpis" "acme"


/-- A decimal digit is not a sign character and not whitespace. -/
theorem digit_ne (c : Char) (hc : c.isDigit = true) :
    c ≠ '-' ∧ c ≠ '+' ∧ c.isWhitespace = false := by
  refine ⟨?_, ?_, ?_⟩
  · rintro rfl; exact absurd hc (by decide)
  · rintro rfl; exact absurd hc (by decide)
  · unfold Char.isWhitespace
    by_cases h1 : c = ' '
    · subst h1; exact absurd hc (by decide)
    · by_cases h2 : c = '\t'
      · subst h2; exact absurd hc (by decide)
      · by_cases h3 : c = '\r'
        · subst h3; exact absurd hc (by decide)
        · by_cases h4 : c = '\n'
          · subst h4; exact absurd hc (by decide)
          · simp [h1, h2, h3, h4]

/-- A literal starting with a digit has no explicit sign. -/
theorem takeSign_digit (c : Char) (t : List Char) (hc : c.isDigit = true) :
    takeSign (c :: t) = (1, c :: t) := by
  have h1 : c ≠ '-' := (digit_ne c hc).1
  have h2 : c ≠ '+' := (digit_ne c hc).2.1
  unfold takeSign
  split
  · rename_i heq
    injection heq with hx _
    exact absurd hx h1
  · rename_i heq
    injection heq with hx _
    exact absurd hx h2
  · rfl

/-- On a non-empty all-digit string, `parseFloat` returns exactly the
decimal value of the digits. -/
theorem jsParseFloat_digits (ds : List Char) (hne : ds ≠ [])
    (hdig : ∀ c ∈ ds, c.isDigit = true) :
    jsParseFloat (String.mk ds) = some ((digitsToNat ds : ℚ)) := by
  cases ds with
  | nil => exact absurd rfl hne
  | cons c t =>
    have hc := hdig c (List.mem_cons_self c t)
    have hw : c.isWhitespace = false := (digit_ne c hc).2.2
    have htd : takeDigits (c :: t) = (c :: t, []) := by
      unfold takeDigits
      rw [List.takeWhile_eq_self_iff.mpr hdig, List.dropWhile_eq_nil_iff.mpr hdig]
    unfold jsParseFloat
    rw [show (String.mk (c :: t)).data = c :: t from rfl]
    rw [List.dropWhile_cons]
    rw [hw]
    simp only [Bool.false_eq_true, if_false]
    rw [takeSign_digit c t hc, htd]
    have h0 : (digitsToNat [] : ℚ) = 0 := rfl
    have hexp : takeExp ([] : List Char) = 0 := rfl
    simp [h0, hexp, List.isEmpty_cons]

/-- C5 counterexample: the coercion `parseFloat(raw || 0)` maps the
present, non-empty, unparseable value `"abc"` to NaN, not to the default 0
the claim states. -/
theorem toNumber_unparseable_nan :
    toNumber (some "abc") = none ∧ toNumber (some "abc") ≠ some 0 := by
  constructor
  · rfl
  · decide

/-- C5 (amended): the coercion never throws (it is a total function); an
absent or empty raw value yields the default 0; a non-empty raw value is
handed to `parseFloat`, which returns the decimal value for digit strings
but NaN — not 0 — for strings with no leading numeric prefix. -/
theorem toNumber_amended (o : Option String) :
    ((o = none ∨ o = some "") → toNumber o = some 0)
    ∧ (∀ s, o = some s → s ≠ "" → toNumber o = jsParseFloat s)
    ∧ (∀ ds : List Char, ds ≠ [] → (∀ c ∈ ds, c.isDigit = true) →
        jsParseFloat (String.mk ds) = some ((digitsToNat ds : ℚ))) := by
  refine ⟨?_, ?_, fun ds h1 h2 => jsParseFloat_digits ds h1 h2⟩
  · rintro (rfl | rfl) <;> rfl
  · rintro s rfl hs
    simp [toNumber, hs]

/-- Witness for the amended C5 theorem at concrete inputs. -/
theorem toNumber_amended_witness :
    toNumber (some "") = some 0
    ∧ toNumber (some "42") = jsParseFloat "42"
    ∧ jsParseFloat (String.mk ['4', '2']) = some ((digitsToNat ['4', '2'] : ℚ)) :=
  ⟨(toNumber_amended (some "")).1 (Or.inr rfl),
   (toNumber_amended (some "42")).2.1 "42" rfl (by decide),
   (toNumber_amended (some "42")).2.2 ['4', '2'] (by decide) (by decide)⟩

/-- A JS `find` whose callback is defined on every element succeeds and
agrees with the pure first-match lookup. -/
theorem findE_ok {α : Type} (p : α → Option Bool) (l : List α)
    (h : ∀ x ∈ l, (p x).isSome = true) :
    findE p l = .ok (l.find? (fun x => (p x).getD false)) := by
  induction l with
  | nil => rfl
  | cons x t ih =>
    obtain ⟨b, hb⟩ := Option.isSome_iff_exists.mp (h x (List.mem_cons_self x t))
    have ht := ih (fun y hy => h y (List.mem_cons_of_mem x hy))
    cases b with
    | true => simp [findE, hb, List.find?]
    | false => simp [findE, hb, List.find?, ht]

/-- C7: under datasets whose supplier records all carry a `Supplier_Name`
(as CSV ingestion guarantees), the alternates resolver matches the supplier
name case-insensitively; when no record matches it returns the 404 body
`{error: "<name> not found"}`; when the lookup finds a record `m`, the rows
returned are exactly the alternate-suppliers records whose `sku_id` equals
`m`'s `SKU_No` by case-sensitive exact equality, projected, minus every row
whose `sku_id` or `supplier_name` is missing or empty. -/
theorem alternates_resolver (supplier : String)
    (suppliersData alternateSuppliersData : List Record)
    (h : ∀ r ∈ suppliersData, (jsField r "Supplier_Name").isSome = true) :
    ((∀ r ∈ suppliersData, (lowerNameMatches supplier r).getD false = false) →
      alternatesHandler supplier suppliersData alternateSuppliersData
        = .ok (.notFound (supplier ++ " not found")))
    ∧ ∀ m, supplierFind supplier suppliersData = some m →
        ∃ rows, alternatesHandler supplier suppliersData alternateSuppliersData
            = .ok (.ok rows)
          ∧ ∀ x, x ∈ rows ↔ ∃ r ∈ alternateSuppliersData,
              jsField r "sku_id" = jsField m "SKU_No" ∧ x = projAlt r
              ∧ truthy x.sku_id = true ∧ truthy x.supplier_name = true := by
  have hsome : ∀ r ∈ suppliersData, (lowerNameMatches supplier r).isSome = true := by
    intro r hr
    have h2 := h r hr
    simp only [lowerNameMatches, Option.isSome_map']
    exact h2
  have hfind := findE_ok (lowerNameMatches supplier) suppliersData hsome
  constructor
  · intro hno
    have hnone : suppliersData.find? (fun x => (lowerNameMatches supplier x).getD false) = none := by
      rw [List.find?_eq_none]
      intro x hx
      simp [hno x hx]
    unfold alternatesHandler
    simp only [Bind.bind, JsOutcome.bind, hfind, hnone]
    rfl
  · intro m hm
    unfold supplierFind at hm
    unfold alternatesHandler
    simp only [Bind.bind, JsOutcome.bind, hfind, hm]
    refine ⟨_, rfl, ?_⟩
    intro x
    simp only [List.mem_filter, List.mem_map, List.mem_filter, Bool.and_eq_true, beq_iff_eq]
    constructor
    · rintro ⟨⟨r, ⟨hrmem, hrsku⟩, rfl⟩, h1, h2⟩
      exact ⟨r, hrmem, hrsku, rfl, h1, h2⟩
    · rintro ⟨r, hrmem, hrsku, rfl, h1, h2⟩
      exact ⟨⟨r, ⟨hrmem, hrsku⟩, rfl⟩, h1, h2⟩

/-- Witness for the C7 theorem: a missing supplier yields the 404 body, a
present one yields a row list. -/
theorem alternates_resolver_witness :
    (alternatesHandler "ghost" [[("Supplier_Name", "Acme"), ("SKU_No", "S1")]] []
      = .ok (.notFound ("ghost" ++ " not found")))
    ∧ ∃ rows, alternatesHandler "acme" [[("Supplier_Name", "Acme"), ("SKU_No", "S1")]]
        [[("sku_id", "S1"), ("supplier_name", "Alt1")]] = .ok (.ok rows) := by
  constructor
  · exact (alternates_resolver "ghost" [[("Supplier_Name", "Acme"), ("SKU_No", "S1")]] []
      (by decide)).1 (by decide)
  · obtain ⟨rows, hrows, -⟩ :=
      (alternates_resolver "acme" [[("Supplier_Name", "Acme"), ("SKU_No", "S1")]]
        [[("sku_id", "S1"), ("supplier_name", "Alt1")]] (by decide)).2
      [("Supplier_Name", "Acme"), ("SKU_No", "S1")] (by decide)
    exact ⟨rows, hrows⟩

/-- The date comparator is total: one direction is always non-positive. -/
theorem cmpRow_total (a b : AttendanceRow) : cmpRow a b ≤ 0 ∨ cmpRow b a ≤ 0 := by
  unfold cmpRow
  rcases a.date.bind parseISODay with _ | x <;> rcases b.date.bind parseISODay with _ | y <;>
    simp <;> omega

/-- Transitivity-style fact the stable insertion needs: an element strictly
after `x` cannot precede anything `x` precedes. -/
theorem cmpRow_key (x y z : AttendanceRow) (h1 : 0 < cmpRow y x) (h2 : cmpRow y z ≤ 0) :
    cmpRow x z ≤ 0 := by
  unfold cmpRow at h1 h2 ⊢
  rcases hgy : y.date.bind parseISODay with _ | vy <;>
    rcases hgx : x.date.bind parseISODay with _ | vx <;>
    rcases hgz : z.date.bind parseISODay with _ | vz <;>
    simp_all <;> omega

/-- Stable insertion only rearranges: every element is the new one or old. -/
theorem insertStable_mem {α : Type} (c : α → α → Int) (x : α) (l : List α) :
    ∀ z ∈ insertStable c x l, z = x ∨ z ∈ l := by
  induction l with
  | nil =>
    intro z hz
    simp [insertStable] at hz
    exact Or.inl hz
  | cons y ys ih =>
    intro z hz
    by_cases hc : c y x ≤ 0
    · simp only [insertStable, if_pos hc] at hz
      rcases List.mem_cons.mp hz with rfl | hz2
      · exact Or.inr (List.mem_cons_self _ _)
      · rcases ih z hz2 with h | h
        · exact Or.inl h
        · exact Or.inr (List.mem_cons_of_mem _ h)
    · simp only [insertStable, if_neg hc] at hz
      rcases List.mem_cons.mp hz with rfl | hz2
      · exact Or.inl rfl
      · exact Or.inr hz2

/-- Stable insertion is a permutation of cons. -/
theorem insertStable_perm {α : Type} (c : α → α → Int) (x : α) (l : List α) :
    (insertStable c x l).Perm (x :: l) := by
  induction l with
  | nil => simp [insertStable]
  | cons y ys ih =>
    by_cases hc : c y x ≤ 0
    · simp only [insertStable, if_pos hc]
      exact (ih.cons y).trans (List.Perm.swap x y ys)
    · simp [insertStable, if_neg hc]
  
/-- Stable insertion preserves sortedness for a total, key-transitive comparator. -/
theorem insertStable_pairwise {α : Type} (c : α → α → Int)
    (tot : ∀ a b, c a b ≤ 0 ∨ c b a ≤ 0)
    (key : ∀ u v w, 0 < c v u → c v w ≤ 0 → c u w ≤ 0)
    (x : α) (l : List α) (h : l.Pairwise (fun a b => c a b ≤ 0)) :
    (insertStable c x l).Pairwise (fun a b => c a b ≤ 0) := by
  induction l with
  | nil => simp [insertStable]
  | cons y ys ih =>
    rcases List.pairwise_cons.mp h with ⟨hy, hys⟩
    by_cases hc : c y x ≤ 0
    · simp only [insertStable, if_pos hc]
      refine List.pairwise_cons.mpr ⟨?_, ih hys⟩
      intro z hz
      rcases insertStable_mem c x ys z hz with rfl | hzys
      · exact hc
      · exact hy z hzys
    · simp only [insertStable, if_neg hc]
      push_neg at hc
      refine List.pairwise_cons.mpr ⟨?_, List.pairwise_cons.mpr ⟨hy, hys⟩⟩
      intro z hz
      rcases List.mem_cons.mp hz with rfl | hzys
      · rcases tot x z with h1 | h1
        · exact h1
        · omega
      · exact key x y z hc (hy z hzys)

/-- The stable sort permutes its input. -/
theorem jsSort_perm {α : Type} (c : α → α → Int) (l : List α) : (jsSort c l).Perm l := by
  unfold jsSort
  suffices h : ∀ acc : List α, (l.foldl (fun a x => insertStable c x a) acc).Perm (acc ++ l) by
    simpa using h []
  induction l with
  | nil => intro acc; simp
  | cons x t ih =>
    intro acc
    simp only [List.foldl_cons]
    refine (ih (insertStable c x acc)).trans ?_
    refine (((insertStable_perm c x acc).append_right t)).trans ?_
    exact (List.perm_middle).symm

/-- The stable sort output is pairwise ordered by the comparator. -/
theorem jsSort_pairwise {α : Type} (c : α → α → Int)
    (tot : ∀ a b, c a b ≤ 0 ∨ c b a ≤ 0)
    (key : ∀ u v w, 0 < c v u → c v w ≤ 0 → c u w ≤ 0)
    (l : List α) : (jsSort c l).Pairwise (fun a b => c a b ≤ 0) := by
  unfold jsSort
  suffices h : ∀ acc : List α, acc.Pairwise (fun a b => c a b ≤ 0) →
      (l.foldl (fun a x => insertStable c x a) acc).Pairwise (fun a b => c a b ≤ 0) by
    exact h [] (by simp)
  induction l with
  | nil => intro acc hacc; simpa using hacc
  | cons x t ih =>
    intro acc hacc
    simp only [List.foldl_cons]
    exact ih _ (insertStable_pairwise c tot key x acc hacc)

/-- C10: `/api/attendance` and `/api/attendance/table` compute identical
responses — the same renamed records (a permutation of the renamed input),
in the same non-decreasing date order under the `new Date` comparator, with
the `Shift` field defaulting to `"Day"` when absent (or empty). -/
theorem attendance_endpoints_equivalent (attendanceData : List Record) :
    attendanceHandler attendanceData = attendanceTableHandler attendanceData
    ∧ (attendanceHandler attendanceData).Pairwise (fun a b => cmpRow a b ≤ 0)
    ∧ (attendanceHandler attendanceData).Perm (attendanceData.map renameRow)
    ∧ ∀ r : Record, (jsField r "Shift" = none ∨ jsField r "Shift" = some "") →
        (renameRow r).shift = "Day" := by
  refine ⟨rfl, ?_, ?_, ?_⟩
  · exact jsSort_pairwise cmpRow cmpRow_total cmpRow_key _
  · exact jsSort_perm cmpRow _
  · rintro r (h | h) <;> simp [renameRow, h]

/-- Witness for the C10 theorem: the shift default at a concrete record. -/
theorem attendance_endpoints_witness :
    (renameRow ([("Date", "2018-01-01")] : Record)).shift = "Day" :=
  (attendance_endpoints_equivalent []).2.2.2 [("Date", "2018-01-01")] (Or.inl (by decide))
